import Mathlib

/-!
Verification development for the CrUX analyzer backend
(`analysis/serializers.py`, `analysis/crux_service.py`, `analysis/views.py`).

The Python code is shallowly embedded: metric values are exact rationals,
JSON absence is `Option`, per-URL HTTP traffic is an oracle
`String → UpstreamOutcome`, and wall-clock timestamps are a `Nat`
parameter threaded through the pipeline.
-/

namespace Crux

/-! ## Data model (`crux_service.py`) -/

/-- Status tag of a parsed metric sample. -/
inductive MetricStatus where
  | available
  | unavailable
deriving DecidableEq

/-- The three metric keys the service reports (`lcp`, `cls`, `fcp`). -/
inductive MetricKey where
  | lcp
  | cls
  | fcp
deriving DecidableEq, Fintype

/-- Opaque histogram bins: the code passes the `distribution` array through
without inspecting it, so its entries are modelled as opaque rationals. -/
abbrev Distribution := List ℚ

/-- Opaque reporting window: the code passes `collectionPeriod` through
without inspecting it; `none` models the empty object `{}`. -/
abbrev CollectionPeriod := Option ℕ

/-- The `percentiles` object of one raw upstream metric.  Each percentile
key may be absent. -/
structure RawPercentiles where
  p75 : Option ℚ
  p90 : Option ℚ
  p99 : Option ℚ
deriving DecidableEq

/-- One raw upstream metric object.  `percentiles := none` models the key
being absent, `None`, or an empty (falsy) object, exactly the cases where
Python's `not metric.get('percentiles')` holds. -/
structure RawMetric where
  percentiles : Option RawPercentiles
  distribution : Option Distribution
deriving DecidableEq

/-- The raw `record.metrics` map, restricted to the three keys the code
reads.  A `none` field models an absent key. -/
structure RawMetricsMap where
  largest_contentful_paint : Option RawMetric
  cumulative_layout_shift : Option RawMetric
  first_contentful_paint : Option RawMetric
deriving DecidableEq

/-- The raw `record` object of an upstream response. -/
structure RawRecord where
  metrics : Option RawMetricsMap
  collectionPeriod : CollectionPeriod
deriving DecidableEq

/-- A raw upstream response body. -/
structure RawResponse where
  record : Option RawRecord
deriving DecidableEq

/-- A parsed metric sample as built by `CrUXService._parse_metric`.
The unavailable branch of the Python code emits a dict without a
`distribution` key, modelled as `distribution := none`. -/
structure MetricSample where
  p75 : Option ℚ
  p90 : Option ℚ
  p99 : Option ℚ
  distribution : Option Distribution
  status : MetricStatus
deriving DecidableEq

/-- The nested `metrics` dict of a parsed result. -/
structure Metrics where
  lcp : MetricSample
  cls : MetricSample
  fcp : MetricSample
deriving DecidableEq

/-- Field lookup in the parsed `metrics` dict by metric key. -/
def Metrics.get (m : Metrics) : MetricKey → MetricSample
  | .lcp => m.lcp
  | .cls => m.cls
  | .fcp => m.fcp

/-- One URL's parsed outcome as built by `_parse_crux_response`. -/
structure URLResult where
  url : String
  fetchTime : ℕ
  metrics : Metrics
  collectionPeriod : CollectionPeriod
deriving DecidableEq

/-- One URL's failure outcome as appended to the `errors` list. -/
structure URLError where
  url : String
  error : String
deriving DecidableEq

/-- Per-metric aggregate statistics, one entry of the summary dict. -/
structure MetricSummary where
  avg : ℚ
  min : ℚ
  max : ℚ
  count : ℕ
deriving DecidableEq

/-- The full summary dict keyed by the three metrics. -/
structure SummaryStats where
  lcp : MetricSummary
  cls : MetricSummary
  fcp : MetricSummary
deriving DecidableEq

/-- Field lookup in the summary dict by metric key. -/
def SummaryStats.get (s : SummaryStats) : MetricKey → MetricSummary
  | .lcp => s.lcp
  | .cls => s.cls
  | .fcp => s.fcp

/-- The dict returned by `CrUXService.analyze_urls`. -/
structure BatchReport where
  results : List URLResult
  summary : SummaryStats
  errors : List URLError
  totalUrls : ℕ
  successCount : ℕ
  timestamp : ℕ
deriving DecidableEq

/-! ## URL normalization and validation (`serializers.py`) -/

/-- The whitespace characters stripped by Python's `str.strip()`
(ASCII range). -/
def isPySpace (c : Char) : Bool :=
  c = ' ' || c = '\t' || c = '\n' || c = '\r' || c = '\x0b' || c = '\x0c'

/-- Python `str.strip()`: drop leading and trailing whitespace. -/
def pyStrip (s : String) : String :=
  ⟨((s.data.dropWhile isPySpace).reverse.dropWhile isPySpace).reverse⟩

/-- The regex test `re.match(r'^https?://', url, re.IGNORECASE)`:
does the string begin with `http://` or `https://`, case-insensitively? -/
def hasHttpScheme (s : String) : Bool :=
  let l := s.data.map Char.toLower
  l.take 7 == "http://".data || l.take 8 == "https://".data

/-- Does the string begin with `//`?  (`url.startswith('//')`). -/
def beginsWithSlashes (s : String) : Bool :=
  s.data.take 2 == "//".data

/-- `FlexibleURLField.to_internal_value`: falsy input is returned as is;
otherwise strip whitespace and prepend a scheme when missing.  The
framework's own URL well-formedness check that runs afterwards is an
external collaborator and not modelled. -/
def to_internal_value (data : String) : String :=
  if data = "" then data
  else
    let url := pyStrip data
    if hasHttpScheme url then url
    else if beginsWithSlashes url then "https:" ++ url
    else "https://" ++ url

/-- The normalization step as the spec words it ("trim whitespace; if it
lacks an http:// or https:// prefix, prepend https: when it already
starts with //, otherwise prepend https://"), with no special case for
the empty string.  Used to compare the code against the spec. -/
def specNormalize (s : String) : String :=
  let url := pyStrip s
  if hasHttpScheme url then url
  else if beginsWithSlashes url then "https:" ++ url
  else "https://" ++ url

/-- The deduplication loop of `URLListSerializer.validate_urls`: walk the
list keeping each URL not already in `seen`. -/
def dedupFirst (seen : List String) : List String → List String
  | [] => []
  | u :: rest =>
    if u ∈ seen then dedupFirst seen rest
    else u :: dedupFirst (u :: seen) rest

/-- `URLListSerializer.validate_urls`: remove duplicates, keeping the
first occurrence of each URL. -/
def validate_urls (value : List String) : List String :=
  dedupFirst [] value

/-- The serializer validation pipeline for the `urls` field, in framework
order: each entry is normalized by the child field and its normalized
length checked against `max_length=2048`, then the list length is checked
against `min_length=1` / `max_length=20`, and only then does
`validate_urls` deduplicate.  The framework's URL well-formedness regex
is an external collaborator and not modelled. -/
def validateRequest (raw : List String) : Except String (List String) :=
  if (raw.map to_internal_value).any (fun u => u.length > 2048) then .error "Invalid input"
  else if raw.length < 1 then .error "Invalid input"
  else if raw.length > 20 then .error "Invalid input"
  else .ok (validate_urls (raw.map to_internal_value))

instance {ε α : Type} [DecidableEq ε] [DecidableEq α] : DecidableEq (Except ε α)
  | .error a, .error b =>
    if h : a = b then .isTrue (h ▸ rfl) else .isFalse (fun hc => by cases hc; exact h rfl)
  | .error _, .ok _ => .isFalse (fun hc => by cases hc)
  | .ok _, .error _ => .isFalse (fun hc => by cases hc)
  | .ok a, .ok b =>
    if h : a = b then .isTrue (h ▸ rfl) else .isFalse (fun hc => by cases hc; exact h rfl)

/-! ## Service construction and fetch (`crux_service.py`) -/

/-- The slice of Django settings the service reads.  `CRUX_API_KEY` is
`os.getenv('CRUX_API_KEY')`, hence possibly `None`. -/
structure Settings where
  CRUX_API_KEY : Option String
  CRUX_API_URL : String
deriving DecidableEq

/-- A constructed `CrUXService` instance. -/
structure CrUXService where
  api_key : String
  api_url : String
  timeout : ℕ
deriving DecidableEq

/-- `CrUXService.__init__`: store the key, URL and a 10-second timeout,
raising `CrUXAPIError` when the key is falsy (absent or empty). -/
def mkCrUXService (s : Settings) : Except String CrUXService :=
  match s.CRUX_API_KEY with
  | none => .error "CrUX API key not configured"
  | some k =>
    if k = "" then .error "CrUX API key not configured"
    else .ok ⟨k, s.CRUX_API_URL, 10⟩

/-- What the network does for one URL: a payload, a transport failure
(`requests.RequestException`), or any other exception raised while
fetching. -/
inductive UpstreamOutcome where
  | payload (data : RawResponse)
  | netError (msg : String)
  | otherError (msg : String)

/-- How one URL's fetch can fail, as seen by the batch loop:
a `CrUXAPIError` or any other exception. -/
inductive FetchError where
  | api (msg : String)
  | other (msg : String)
deriving DecidableEq

/-- `CrUXService._parse_metric`: a falsy metric or falsy `percentiles`
yields an unavailable sample with null percentiles; otherwise the three
percentiles and the distribution (defaulting to `[]`) are copied over. -/
def _parse_metric (metric : Option RawMetric) : MetricSample :=
  match metric with
  | none => ⟨none, none, none, none, .unavailable⟩
  | some m =>
    match m.percentiles with
    | none => ⟨none, none, none, none, .unavailable⟩
    | some p => ⟨p.p75, p.p90, p.p99, some (m.distribution.getD []), .available⟩

/-- `data.get('record', {}).get('metrics', {}).get(<key>)` for one of the
three metric keys. -/
def rawMetricAt (data : RawResponse) : MetricKey → Option RawMetric
  | .lcp => (data.record.bind RawRecord.metrics).bind RawMetricsMap.largest_contentful_paint
  | .cls => (data.record.bind RawRecord.metrics).bind RawMetricsMap.cumulative_layout_shift
  | .fcp => (data.record.bind RawRecord.metrics).bind RawMetricsMap.first_contentful_paint

/-- `CrUXService._parse_crux_response`: build the display-format result
for one URL from a raw payload, stamping the current time. -/
def _parse_crux_response (data : RawResponse) (url : String) (now : ℕ) : URLResult :=
  { url := url
    fetchTime := now
    metrics :=
      { lcp := _parse_metric (rawMetricAt data .lcp)
        cls := _parse_metric (rawMetricAt data .cls)
        fcp := _parse_metric (rawMetricAt data .fcp) }
    collectionPeriod := data.record.bind RawRecord.collectionPeriod }

/-- `CrUXService.fetch_crux_data`: perform the request and parse the
payload; a transport failure becomes a `CrUXAPIError` with the
`Failed to fetch CrUX data:` message, any other exception propagates. -/
def fetch_crux_data (upstream : String → UpstreamOutcome) (now : ℕ)
    (url : String) : Except FetchError URLResult :=
  match upstream url with
  | .payload d => .ok (_parse_crux_response d url now)
  | .netError m => .error (.api ("Failed to fetch CrUX data: " ++ m))
  | .otherError m => .error (.other m)

/-! ## Aggregation (`_generate_summary`) -/

/-- Round-half-to-even on an exact rational, the rounding Python's
built-in `round` uses. -/
def roundHalfEven (q : ℚ) : ℤ :=
  let f : ℤ := ⌊q⌋
  let r : ℚ := q - f
  if r < 1/2 then f
  else if 1/2 < r then f + 1
  else if f % 2 = 0 then f else f + 1

/-- Python `round(x, 2)` modelled on exact rationals. -/
def round2 (q : ℚ) : ℚ := (roundHalfEven (q * 100) : ℚ) / 100

/-- Python `min(values)` over a list, as a fold producing `none` on the
empty list. -/
def optMin (vals : List ℚ) : Option ℚ :=
  vals.foldl (fun a x => some (match a with | none => x | some m => min m x)) none

/-- Python `max(values)` over a list, as a fold producing `none` on the
empty list. -/
def optMax (vals : List ℚ) : Option ℚ :=
  vals.foldl (fun a x => some (match a with | none => x | some m => max m x)) none

/-- The inner collection loop of `_generate_summary`: the `p75` value of
each result whose sample for this metric has one (`p75_value is not
None`), in result order. -/
def metricValues (results : List URLResult) (m : MetricKey) : List ℚ :=
  results.filterMap (fun r => (r.metrics.get m).p75)

/-- One metric's summary entry: average, min, max and count when any
values were collected, all zeros otherwise. -/
def summarize (vals : List ℚ) : MetricSummary :=
  if vals.isEmpty then ⟨0, 0, 0, 0⟩
  else
    { avg := round2 (vals.sum / (vals.length : ℚ))
      min := (optMin vals).getD 0
      max := (optMax vals).getD 0
      count := vals.length }

/-- `CrUXService._generate_summary`: per-metric statistics over the
successful results. -/
def _generate_summary (results : List URLResult) : SummaryStats :=
  { lcp := summarize (metricValues results .lcp)
    cls := summarize (metricValues results .cls)
    fcp := summarize (metricValues results .fcp) }

/-! ## Batch orchestration (`analyze_urls`) and the view (`views.py`) -/

/-- The per-URL loop of `analyze_urls`: try each URL in order, collecting
successes into `results` and failures into `errors` (a `CrUXAPIError`
message verbatim, any other exception behind `Unexpected error:`). -/
def analyzeLoop (fetch : String → Except FetchError URLResult) :
    List String → List URLResult × List URLError
  | [] => ([], [])
  | u :: rest =>
    let acc := analyzeLoop fetch rest
    match fetch u with
    | .ok r => (r :: acc.1, acc.2)
    | .error (.api m) => (acc.1, ⟨u, m⟩ :: acc.2)
    | .error (.other m) => (acc.1, ⟨u, "Unexpected error: " ++ m⟩ :: acc.2)

/-- `CrUXService.analyze_urls`: run the loop, summarize the successes,
and assemble the report. -/
def analyze_urls (upstream : String → UpstreamOutcome) (now : ℕ)
    (urls : List String) : BatchReport :=
  let acc := analyzeLoop (fetch_crux_data upstream now) urls
  { results := acc.1
    summary := _generate_summary acc.1
    errors := acc.2
    totalUrls := urls.length
    successCount := acc.1.length
    timestamp := now }

/-- HTTP status classes the `analyze_url` view can answer with. -/
inductive HttpStatus where
  | ok200
  | badRequest400
  | serviceUnavailable503
  | internalError500
deriving DecidableEq

/-- A view response: the status and, on success, the report body. -/
structure ViewResponse where
  status : HttpStatus
  report : Option BatchReport
deriving DecidableEq

/-- The `analyze_url` view: validate the input (invalid → 400), construct
the service (`CrUXAPIError` → 503), then run the batch and answer 200. -/
def analyze_url (s : Settings) (upstream : String → UpstreamOutcome)
    (now : ℕ) (raw : List String) : ViewResponse :=
  match validateRequest raw with
  | .error _ => ⟨.badRequest400, none⟩
  | .ok urls =>
    match mkCrUXService s with
    | .error _ => ⟨.serviceUnavailable503, none⟩
    | .ok _ => ⟨.ok200, some (analyze_urls upstream now urls)⟩

/-! ## Spec-side auxiliary definitions -/

/-- A sample is parser-shaped when an unavailable status comes with a
null `p75`; every sample `_parse_metric` emits satisfies this. -/
def MetricSample.wellFormed (s : MetricSample) : Prop :=
  s.status = .unavailable → s.p75 = none

instance (s : MetricSample) : Decidable s.wellFormed := by
  unfold MetricSample.wellFormed; infer_instance

/-- The collection rule as the spec words it: the `p75` value of every
result whose sample for this metric is available.  Used to compare the
aggregator against the spec. -/
def specCollectP75 (results : List URLResult) (m : MetricKey) : List ℚ :=
  results.filterMap (fun r =>
    if (r.metrics.get m).status = .available then (r.metrics.get m).p75 else none)

/-- Index of the first occurrence of `a` in `l` (length of `l` when
absent); used to state first-occurrence ordering. -/
def firstIdx (a : String) : List String → ℕ
  | [] => 0
  | b :: t => if b = a then 0 else firstIdx a t + 1

/-- The error entry `analyze_urls` appends for one URL when its fetch
fails: a `CrUXAPIError` message verbatim, any other exception behind
the `Unexpected error:` marker. -/
def errEntry (fetch : String → Except FetchError URLResult) (u : String) : Option URLError :=
  match fetch u with
  | .ok _ => none
  | .error (.api m) => some ⟨u, m⟩
  | .error (.other m) => some ⟨u, "Unexpected error: " ++ m⟩

/-- Whether one URL's fetch succeeds. -/
def fetchOkB (fetch : String → Except FetchError URLResult) (u : String) : Bool :=
  match fetch u with
  | .ok _ => true
  | .error _ => false

/-! ## Concrete data used by witnesses -/

/-- An available sample whose three percentiles all report `v`. -/
def sampleWith (v : ℚ) : MetricSample := ⟨some v, some v, some v, some [], .available⟩

/-- The unavailable sample `_parse_metric` emits when data is missing. -/
def noSample : MetricSample := ⟨none, none, none, none, .unavailable⟩

/-- A result with available `lcp`/`fcp` samples reporting `v` and an
unavailable `cls` sample. -/
def exampleResult (u : String) (v : ℚ) : URLResult :=
  ⟨u, 0, ⟨sampleWith v, noSample, sampleWith v⟩, none⟩

/-- Three successful results with `lcp` p75 values 1000, 2000, 3000. -/
def wResults : List URLResult :=
  [exampleResult "https://a.com" 1000, exampleResult "https://b.com" 2000,
   exampleResult "https://c.com" 3000]

/-- A settings record with a configured credential. -/
def wSettings : Settings := ⟨some "test-key", "https://crux.example/api"⟩

/-- A settings record with no credential. -/
def wNoKey : Settings := ⟨none, "https://crux.example/api"⟩

/-- An upstream where every request fails at the transport level. -/
def wUpstream : String → UpstreamOutcome := fun _ => .netError "connection refused"

/-- A raw percentiles object used by the parser witness. -/
def wPcts : RawPercentiles := ⟨some 1200, some 1800, some 2500⟩

/-- A raw metric carrying `wPcts` and a two-bin distribution. -/
def wMetric : RawMetric := ⟨some wPcts, some [1, 2]⟩

/-- A raw payload whose `largest_contentful_paint` is present and whose
other two metrics are absent. -/
def wRaw : RawResponse := ⟨some ⟨some ⟨some wMetric, none, none⟩, some 7⟩⟩

/-! ## Lemmas about the batch loop -/

theorem analyzeLoop_fst (fetch : String → Except FetchError URLResult) :
    ∀ urls : List String,
      (analyzeLoop fetch urls).1 = urls.filterMap (fun u => (fetch u).toOption)
  | [] => rfl
  | u :: rest => by
    cases h : fetch u with
    | ok r => simp [analyzeLoop, h, Except.toOption, analyzeLoop_fst fetch rest]
    | error e =>
      cases e <;> simp [analyzeLoop, h, Except.toOption, analyzeLoop_fst fetch rest]

theorem analyzeLoop_snd (fetch : String → Except FetchError URLResult) :
    ∀ urls : List String,
      (analyzeLoop fetch urls).2 = urls.filterMap (errEntry fetch)
  | [] => rfl
  | u :: rest => by
    cases h : fetch u with
    | ok r => simp [analyzeLoop, h, errEntry, analyzeLoop_snd fetch rest]
    | error e =>
      cases e <;> simp [analyzeLoop, h, errEntry, analyzeLoop_snd fetch rest]

theorem analyzeLoop_length (fetch : String → Except FetchError URLResult) :
    ∀ urls : List String,
      (analyzeLoop fetch urls).1.length + (analyzeLoop fetch urls).2.length = urls.length
  | [] => rfl
  | u :: rest => by
    have ih := analyzeLoop_length fetch rest
    cases h : fetch u with
    | ok r => simp [analyzeLoop, h]; omega
    | error e => cases e <;> simp [analyzeLoop, h] <;> omega

theorem fetch_ok_url (upstream : String → UpstreamOutcome) (now : ℕ) (u : String)
    (r : URLResult) (h : fetch_crux_data upstream now u = .ok r) : r.url = u := by
  cases hu : upstream u <;> simp [fetch_crux_data, hu] at h
  subst h
  rfl

theorem analyzeLoop_results_map (fetch : String → Except FetchError URLResult)
    (hf : ∀ u r, fetch u = .ok r → r.url = u) :
    ∀ urls : List String,
      (analyzeLoop fetch urls).1.map URLResult.url = urls.filter (fetchOkB fetch)
  | [] => rfl
  | u :: rest => by
    cases h : fetch u with
    | ok r =>
      simp [analyzeLoop, h, fetchOkB, analyzeLoop_results_map fetch hf rest, hf u r h]
    | error e =>
      cases e <;> simp [analyzeLoop, h, fetchOkB, analyzeLoop_results_map fetch hf rest]

theorem analyzeLoop_errors_map (fetch : String → Except FetchError URLResult) :
    ∀ urls : List String,
      (analyzeLoop fetch urls).2.map URLError.url
        = urls.filter (fun u => !(fetchOkB fetch u))
  | [] => rfl
  | u :: rest => by
    cases h : fetch u with
    | ok r => simp [analyzeLoop, h, fetchOkB, analyzeLoop_errors_map fetch rest]
    | error e =>
      cases e <;> simp [analyzeLoop, h, fetchOkB, analyzeLoop_errors_map fetch rest]

theorem count_filter_split (q : String → Bool) (u : String) :
    ∀ l : List String,
      (l.filter q).count u + (l.filter fun x => !(q x)).count u = l.count u
  | [] => rfl
  | a :: t => by
    have ih := count_filter_split q u t
    by_cases hq : q a = true <;> by_cases ha : u = a
    · subst ha
      have h0 : (t.filter fun x => !(q x)).count u = 0 := by
        rw [List.count_eq_zero]
        intro hm
        have h2 := (List.mem_filter.mp hm).2
        simp [hq] at h2
      simp [List.filter_cons, hq, List.count_cons, h0]
    · simp [List.filter_cons, hq, List.count_cons, ha]
      omega
    · subst ha
      have h0 : (t.filter q).count u = 0 := by
        rw [List.count_eq_zero]
        intro hm
        have h2 := (List.mem_filter.mp hm).2
        simp [hq] at h2
      simp [List.filter_cons, hq, List.count_cons, h0]
    · simp [List.filter_cons, hq, List.count_cons, ha]
      omega

theorem analyzeLoop_countP (fetch : String → Except FetchError URLResult)
    (hf : ∀ u r, fetch u = .ok r → r.url = u) (u : String) (urls : List String) :
    (analyzeLoop fetch urls).1.countP (fun r => r.url == u)
      + (analyzeLoop fetch urls).2.countP (fun e => e.url == u) = urls.count u := by
  have e1 : (analyzeLoop fetch urls).1.countP (fun r => r.url == u)
      = (urls.filter (fetchOkB fetch)).count u := by
    rw [← analyzeLoop_results_map fetch hf urls, List.count_eq_countP, List.countP_map]
    rfl
  have e2 : (analyzeLoop fetch urls).2.countP (fun e => e.url == u)
      = (urls.filter fun x => !(fetchOkB fetch x)).count u := by
    rw [← analyzeLoop_errors_map fetch urls, List.count_eq_countP, List.countP_map]
    rfl
  rw [e1, e2, count_filter_split]

/-- Claim C1: the batch orchestrator processes the validated URLs
sequentially in order; each URL whose fetch succeeds contributes its
result to `results`, each URL whose fetch raises a typed upstream error
or any other exception contributes a message to `errors` and processing
continues, so no single failure aborts the batch; `totalUrls` is the
input length and `successCount` is the results length. -/
theorem analyze_urls_partitions_batch (upstream : String → UpstreamOutcome)
    (now : ℕ) (urls : List String) :
    (analyze_urls upstream now urls).results
        = urls.filterMap (fun u => (fetch_crux_data upstream now u).toOption) ∧
    (analyze_urls upstream now urls).errors
        = urls.filterMap (errEntry (fetch_crux_data upstream now)) ∧
    (analyze_urls upstream now urls).totalUrls = urls.length ∧
    (analyze_urls upstream now urls).successCount
        = (analyze_urls upstream now urls).results.length :=
  ⟨analyzeLoop_fst _ urls, analyzeLoop_snd _ urls, rfl, rfl⟩

/-- Claim C9: every URL of a validated (duplicate-free) list contributes
exactly one entry across the two output lists — one result or one
error, never both and never neither — so the two lengths sum to
`totalUrls`, and each list preserves the submission order of its URLs. -/
theorem analyze_urls_exactly_one_entry (upstream : String → UpstreamOutcome)
    (now : ℕ) (urls : List String) (hnd : urls.Nodup) :
    (analyze_urls upstream now urls).results.length
        + (analyze_urls upstream now urls).errors.length
        = (analyze_urls upstream now urls).totalUrls ∧
    ((analyze_urls upstream now urls).results.map URLResult.url).Sublist urls ∧
    ((analyze_urls upstream now urls).errors.map URLError.url).Sublist urls ∧
    ∀ u ∈ urls,
      (analyze_urls upstream now urls).results.countP (fun r => r.url == u)
        + (analyze_urls upstream now urls).errors.countP (fun e => e.url == u) = 1 := by
  have hf : ∀ u r, fetch_crux_data upstream now u = .ok r → r.url = u :=
    fun u r h => fetch_ok_url upstream now u r h
  refine ⟨analyzeLoop_length _ urls, ?_, ?_, ?_⟩
  · show ((analyzeLoop (fetch_crux_data upstream now) urls).1.map URLResult.url).Sublist urls
    rw [analyzeLoop_results_map _ hf urls]
    exact List.filter_sublist urls
  · show ((analyzeLoop (fetch_crux_data upstream now) urls).2.map URLError.url).Sublist urls
    rw [analyzeLoop_errors_map _ urls]
    exact List.filter_sublist urls
  · intro u hu
    have := analyzeLoop_countP (fetch_crux_data upstream now) hf u urls
    rw [List.count_eq_one_of_mem hnd hu] at this
    exact this

/-- Witness for C9 at a concrete one-URL batch whose fetch fails. -/
theorem analyze_urls_exactly_one_entry_witness :
    (["https://a.com"] : List String).Nodup ∧
    ((analyze_urls wUpstream 0 ["https://a.com"]).results.length
        + (analyze_urls wUpstream 0 ["https://a.com"]).errors.length
        = (analyze_urls wUpstream 0 ["https://a.com"]).totalUrls ∧
     ((analyze_urls wUpstream 0 ["https://a.com"]).results.map URLResult.url).Sublist
        ["https://a.com"] ∧
     ((analyze_urls wUpstream 0 ["https://a.com"]).errors.map URLError.url).Sublist
        ["https://a.com"] ∧
     ∀ u ∈ (["https://a.com"] : List String),
       (analyze_urls wUpstream 0 ["https://a.com"]).results.countP (fun r => r.url == u)
         + (analyze_urls wUpstream 0 ["https://a.com"]).errors.countP (fun e => e.url == u)
         = 1) :=
  ⟨by decide, analyze_urls_exactly_one_entry wUpstream 0 ["https://a.com"] (by decide)⟩

/-! ## Lemmas about the aggregator -/

theorem foldl_eq_of_perm {α β : Type} (f : β → α → β)
    (hf : ∀ b x y, f (f b x) y = f (f b y) x) {l₁ l₂ : List α}
    (hp : l₁.Perm l₂) : ∀ b, l₁.foldl f b = l₂.foldl f b := by
  induction hp with
  | nil => intro b; rfl
  | cons x _ ih => intro b; rw [List.foldl_cons, List.foldl_cons]; exact ih _
  | swap x y l => intro b; rw [List.foldl_cons, List.foldl_cons, List.foldl_cons,
      List.foldl_cons, hf]
  | trans _ _ ih₁ ih₂ => intro b; rw [ih₁ b, ih₂ b]

theorem optMin_perm {l₁ l₂ : List ℚ} (hp : l₁.Perm l₂) : optMin l₁ = optMin l₂ := by
  refine foldl_eq_of_perm _ ?_ hp none
  intro b x y
  cases b with
  | none => show some (min x y) = some (min y x); rw [min_comm]
  | some m => show some (min (min m x) y) = some (min (min m y) x); rw [min_right_comm]

theorem optMax_perm {l₁ l₂ : List ℚ} (hp : l₁.Perm l₂) : optMax l₁ = optMax l₂ := by
  refine foldl_eq_of_perm _ ?_ hp none
  intro b x y
  cases b with
  | none => show some (max x y) = some (max y x); rw [max_comm]
  | some m => show some (max (max m x) y) = some (max (max m y) x); rw [sup_right_comm]

theorem summarize_perm {l₁ l₂ : List ℚ} (hp : l₁.Perm l₂) : summarize l₁ = summarize l₂ := by
  have hemp : l₁.isEmpty = l₂.isEmpty := by
    have := hp.length_eq
    cases l₁ <;> cases l₂ <;> simp_all [List.isEmpty]
  rw [summarize, summarize, hemp, hp.length_eq, hp.sum_eq, optMin_perm hp, optMax_perm hp]

/-- Claim C8: the aggregator's summary depends only on the contents of
the results list, not its order. -/
theorem generate_summary_perm_invariant {res₁ res₂ : List URLResult}
    (hp : res₁.Perm res₂) : _generate_summary res₁ = _generate_summary res₂ := by
  have h : ∀ m : MetricKey,
      summarize (metricValues res₁ m) = summarize (metricValues res₂ m) :=
    fun m => summarize_perm (hp.filterMap _)
  simp only [_generate_summary, h .lcp, h .cls, h .fcp]

/-- Witness for C8: swapping two concrete results leaves the summary
unchanged. -/
theorem generate_summary_perm_invariant_witness :
    ([exampleResult "https://b.com" 2000, exampleResult "https://a.com" 1000] : List URLResult).Perm
        [exampleResult "https://a.com" 1000, exampleResult "https://b.com" 2000] ∧
    _generate_summary [exampleResult "https://b.com" 2000, exampleResult "https://a.com" 1000]
        = _generate_summary [exampleResult "https://a.com" 1000, exampleResult "https://b.com" 2000] :=
  ⟨List.Perm.swap _ _ _, generate_summary_perm_invariant (List.Perm.swap _ _ _)⟩

theorem optMin_aux :
    ∀ (l : List ℚ) (m : ℚ),
      l.foldl (fun a x => some (match a with | none => x | some v => min v x)) (some m)
        = some (l.foldl min m)
  | [], _ => rfl
  | x :: t, m => by
    rw [List.foldl_cons, List.foldl_cons]
    exact optMin_aux t (min m x)

theorem optMax_aux :
    ∀ (l : List ℚ) (m : ℚ),
      l.foldl (fun a x => some (match a with | none => x | some v => max v x)) (some m)
        = some (l.foldl max m)
  | [], _ => rfl
  | x :: t, m => by
    rw [List.foldl_cons, List.foldl_cons]
    exact optMax_aux t (max m x)

theorem optMin_cons (v : ℚ) (vs : List ℚ) : optMin (v :: vs) = some (vs.foldl min v) := by
  rw [optMin, List.foldl_cons]
  exact optMin_aux vs v

theorem optMax_cons (v : ℚ) (vs : List ℚ) : optMax (v :: vs) = some (vs.foldl max v) := by
  rw [optMax, List.foldl_cons]
  exact optMax_aux vs v

theorem foldl_min_mem : ∀ (vs : List ℚ) (m : ℚ), vs.foldl min m ∈ m :: vs
  | [], m => by simp
  | x :: t, m => by
    rw [List.foldl_cons]
    rcases List.mem_cons.mp (foldl_min_mem t (min m x)) with h | h
    · rw [h]
      rcases min_choice m x with h' | h' <;> rw [h']
      · exact List.mem_cons_self _ _
      · exact List.mem_cons_of_mem _ (List.mem_cons_self _ _)
    · exact List.mem_cons_of_mem _ (List.mem_cons_of_mem _ h)

theorem foldl_max_mem : ∀ (vs : List ℚ) (m : ℚ), vs.foldl max m ∈ m :: vs
  | [], m => by simp
  | x :: t, m => by
    rw [List.foldl_cons]
    rcases List.mem_cons.mp (foldl_max_mem t (max m x)) with h | h
    · rw [h]
      rcases max_choice m x with h' | h' <;> rw [h']
      · exact List.mem_cons_self _ _
      · exact List.mem_cons_of_mem _ (List.mem_cons_self _ _)
    · exact List.mem_cons_of_mem _ (List.mem_cons_of_mem _ h)

theorem foldl_min_le : ∀ (vs : List ℚ) (m x : ℚ), x ∈ m :: vs → vs.foldl min m ≤ x
  | [], m, x, h => by
    have h' : x = m := by simpa using h
    rw [List.foldl_nil, h']
  | y :: t, m, x, h => by
    rw [List.foldl_cons]
    rcases List.mem_cons.mp h with h1 | h'
    · rw [h1]
      exact le_trans (foldl_min_le t (min m y) _ (List.mem_cons_self _ _)) (min_le_left m y)
    · rcases List.mem_cons.mp h' with h2 | h''
      · rw [h2]
        exact le_trans (foldl_min_le t (min m y) _ (List.mem_cons_self _ _)) (min_le_right m y)
      · exact foldl_min_le t (min m y) x (List.mem_cons_of_mem _ h'')

theorem foldl_max_ge : ∀ (vs : List ℚ) (m x : ℚ), x ∈ m :: vs → x ≤ vs.foldl max m
  | [], m, x, h => by
    have h' : x = m := by simpa using h
    rw [List.foldl_nil, h']
  | y :: t, m, x, h => by
    rw [List.foldl_cons]
    rcases List.mem_cons.mp h with h1 | h'
    · rw [h1]
      exact le_trans (le_max_left m y) (foldl_max_ge t (max m y) _ (List.mem_cons_self _ _))
    · rcases List.mem_cons.mp h' with h2 | h''
      · rw [h2]
        exact le_trans (le_max_right m y) (foldl_max_ge t (max m y) _ (List.mem_cons_self _ _))
      · exact foldl_max_ge t (max m y) x (List.mem_cons_of_mem _ h'')

theorem specCollect_eq_metricValues (results : List URLResult)
    (hwf : ∀ r ∈ results, ∀ m : MetricKey, (r.metrics.get m).wellFormed)
    (m : MetricKey) : specCollectP75 results m = metricValues results m := by
  refine List.filterMap_congr ?_
  intro r hr
  cases hst : (r.metrics.get m).status with
  | available => simp [hst]
  | unavailable => simp [hst, hwf r hr m hst]

theorem generate_summary_get (results : List URLResult) (m : MetricKey) :
    (_generate_summary results).get m = summarize (metricValues results m) := by
  cases m <;> rfl

/-- Claim C2: for each of the three metrics the aggregator collects the
p75 value from every result where that metric is available; a non-empty
collection yields the average rounded to 2 decimals, the min, the max
and the count of the collected values, and an empty collection yields
all zeros; in particular p75 values 1000, 2000, 3000 yield avg 2000,
min 1000, max 3000, count 3. -/
theorem generate_summary_spec (results : List URLResult)
    (hwf : ∀ r ∈ results, ∀ m : MetricKey, (r.metrics.get m).wellFormed)
    (m : MetricKey) :
    (specCollectP75 results m = [] → (_generate_summary results).get m = ⟨0, 0, 0, 0⟩) ∧
    (∀ v vs, specCollectP75 results m = v :: vs →
      ((_generate_summary results).get m).avg
          = round2 ((v :: vs).sum / ((v :: vs).length : ℚ)) ∧
      ((_generate_summary results).get m).count = (v :: vs).length ∧
      ((_generate_summary results).get m).min ∈ v :: vs ∧
      (∀ x ∈ v :: vs, ((_generate_summary results).get m).min ≤ x) ∧
      ((_generate_summary results).get m).max ∈ v :: vs ∧
      (∀ x ∈ v :: vs, x ≤ ((_generate_summary results).get m).max)) ∧
    (_generate_summary wResults).get .lcp = ⟨2000, 1000, 3000, 3⟩ ∧
    (_generate_summary wResults).get .cls = ⟨0, 0, 0, 0⟩ := by
  have hkey : specCollectP75 results m = metricValues results m :=
    specCollect_eq_metricValues results hwf m
  refine ⟨?_, ?_, ?_, ?_⟩
  · intro h
    rw [generate_summary_get, ← hkey, h]
    rfl
  · intro v vs h
    rw [generate_summary_get, ← hkey, h]
    have hs : summarize (v :: vs)
        = { avg := round2 ((v :: vs).sum / ((v :: vs).length : ℚ)),
            min := (optMin (v :: vs)).getD 0,
            max := (optMax (v :: vs)).getD 0,
            count := (v :: vs).length } := rfl
    rw [hs]
    refine ⟨rfl, rfl, ?_, ?_, ?_, ?_⟩
    · show (optMin (v :: vs)).getD 0 ∈ v :: vs
      rw [optMin_cons, Option.getD_some]
      exact foldl_min_mem vs v
    · intro x hx
      show (optMin (v :: vs)).getD 0 ≤ x
      rw [optMin_cons, Option.getD_some]
      exact foldl_min_le vs v x hx
    · show (optMax (v :: vs)).getD 0 ∈ v :: vs
      rw [optMax_cons, Option.getD_some]
      exact foldl_max_mem vs v
    · intro x hx
      show x ≤ (optMax (v :: vs)).getD 0
      rw [optMax_cons, Option.getD_some]
      exact foldl_max_ge vs v x hx
  · simp [_generate_summary, SummaryStats.get, wResults, exampleResult, sampleWith, noSample,
      metricValues, Metrics.get, summarize, optMin, optMax, round2, roundHalfEven]
    norm_num
  · simp [_generate_summary, SummaryStats.get, wResults, exampleResult, sampleWith, noSample,
      metricValues, Metrics.get, summarize]

/-- Witness for C2 at three concrete results with lcp p75 values
1000, 2000, 3000 (cls unavailable throughout). -/
theorem generate_summary_spec_witness :
    (∀ r ∈ wResults, ∀ m : MetricKey, (r.metrics.get m).wellFormed) ∧
    ((specCollectP75 wResults .lcp = [] → (_generate_summary wResults).get .lcp = ⟨0, 0, 0, 0⟩) ∧
     (∀ v vs, specCollectP75 wResults .lcp = v :: vs →
       ((_generate_summary wResults).get .lcp).avg
           = round2 ((v :: vs).sum / ((v :: vs).length : ℚ)) ∧
       ((_generate_summary wResults).get .lcp).count = (v :: vs).length ∧
       ((_generate_summary wResults).get .lcp).min ∈ v :: vs ∧
       (∀ x ∈ v :: vs, ((_generate_summary wResults).get .lcp).min ≤ x) ∧
       ((_generate_summary wResults).get .lcp).max ∈ v :: vs ∧
       (∀ x ∈ v :: vs, x ≤ ((_generate_summary wResults).get .lcp).max)) ∧
     (_generate_summary wResults).get .lcp = ⟨2000, 1000, 3000, 3⟩ ∧
     (_generate_summary wResults).get .cls = ⟨0, 0, 0, 0⟩) :=
  ⟨by decide, generate_summary_spec wResults (by decide) .lcp⟩

/-! ## Lemmas about the response normalizer -/

theorem parse_metric_wellFormed (om : Option RawMetric) :
    (_parse_metric om).wellFormed := by
  unfold MetricSample.wellFormed
  cases om with
  | none => intro _; rfl
  | some rm =>
    cases hp : rm.percentiles with
    | none => intro _; simp [_parse_metric, hp]
    | some p => intro hst; simp [_parse_metric, hp] at hst

theorem metricValues_cons_none {r : URLResult} {l : List URLResult} {k : MetricKey}
    (h : (r.metrics.get k).p75 = none) :
    metricValues (r :: l) k = metricValues l k := by
  simp only [metricValues]
  exact List.filterMap_cons_none h

theorem metricValues_cons_some {r : URLResult} {l : List URLResult} {k : MetricKey} {v : ℚ}
    (h : (r.metrics.get k).p75 = some v) :
    metricValues (r :: l) k = v :: metricValues l k := by
  simp only [metricValues]
  exact List.filterMap_cons_some h

theorem metricValues_filter_available :
    ∀ (results : List URLResult),
      (∀ r ∈ results, ∀ k : MetricKey, (r.metrics.get k).wellFormed) →
      ∀ k : MetricKey,
        metricValues (results.filter fun r => (r.metrics.get k).status == MetricStatus.available) k
          = metricValues results k
  | [], _, _ => rfl
  | r :: rest, hwf, k => by
    have hr := hwf r (List.mem_cons_self r rest) k
    have ih := metricValues_filter_available rest
        (fun x hx kk => hwf x (List.mem_cons_of_mem _ hx) kk) k
    by_cases hb : ((r.metrics.get k).status == MetricStatus.available) = true
    · rw [List.filter_cons, if_pos hb]
      cases h75 : (r.metrics.get k).p75 with
      | none => rw [metricValues_cons_none h75, metricValues_cons_none h75]; exact ih
      | some v => rw [metricValues_cons_some h75, metricValues_cons_some h75, ih]
    · rw [List.filter_cons, if_neg hb]
      have hst : (r.metrics.get k).status = .unavailable := by
        cases hs : (r.metrics.get k).status
        · exact absurd (by simp [hs]) hb
        · rfl
      have h75 : (r.metrics.get k).p75 = none := hr hst
      rw [metricValues_cons_none h75]
      exact ih

/-- Claim C3: the response normalizer wires each of the three named
metrics from the payload's nested metrics map into `_parse_metric`; an
absent metric or absent percentile data yields an unavailable sample
with null p75/p90/p99, present percentile data yields an available
sample carrying p75/p90/p99 and the raw distribution array; and an
unavailable sample is excluded from aggregation regardless of the other
fields present. -/
theorem parse_metric_spec (data : RawResponse) (url : String) (now : ℕ) (m : MetricKey) :
    ((_parse_crux_response data url now).metrics.get m = _parse_metric (rawMetricAt data m)) ∧
    (rawMetricAt data m = none →
      (_parse_crux_response data url now).metrics.get m
        = ⟨none, none, none, none, .unavailable⟩) ∧
    (∀ rm, rawMetricAt data m = some rm → rm.percentiles = none →
      (_parse_crux_response data url now).metrics.get m
        = ⟨none, none, none, none, .unavailable⟩) ∧
    (∀ rm p, rawMetricAt data m = some rm → rm.percentiles = some p →
      (_parse_crux_response data url now).metrics.get m
        = ⟨p.p75, p.p90, p.p99, some (rm.distribution.getD []), .available⟩) ∧
    (∀ k : MetricKey, ((_parse_crux_response data url now).metrics.get k).wellFormed) ∧
    (∀ (results : List URLResult),
      (∀ r ∈ results, ∀ k : MetricKey, (r.metrics.get k).wellFormed) →
      ∀ k : MetricKey,
        metricValues (results.filter fun r => (r.metrics.get k).status == MetricStatus.available) k
          = metricValues results k) := by
  have hwire : ∀ mm : MetricKey,
      (_parse_crux_response data url now).metrics.get mm = _parse_metric (rawMetricAt data mm) := by
    intro mm; cases mm <;> rfl
  refine ⟨hwire m, ?_, ?_, ?_, ?_, metricValues_filter_available⟩
  · intro h
    rw [hwire m, h]
    rfl
  · intro rm h hp
    rw [hwire m, h]
    simp [_parse_metric, hp]
  · intro rm p h hp
    rw [hwire m, h]
    simp [_parse_metric, hp]
  · intro k
    rw [hwire k]
    exact parse_metric_wellFormed _

/-- Witness for C3 at a concrete payload with lcp percentiles present
and cls absent. -/
theorem parse_metric_spec_witness :
    (_parse_crux_response wRaw "https://a.com" 5).metrics.get .lcp
        = ⟨some 1200, some 1800, some 2500, some [1, 2], .available⟩ ∧
    (_parse_crux_response wRaw "https://a.com" 5).metrics.get .cls
        = ⟨none, none, none, none, .unavailable⟩ :=
  ⟨(parse_metric_spec wRaw "https://a.com" 5 .lcp).2.2.2.1 wMetric wPcts rfl rfl,
   (parse_metric_spec wRaw "https://a.com" 5 .cls).2.1 rfl⟩

/-! ## Lemmas about the serializer -/

theorem dedupFirst_sublist : ∀ (l seen : List String), (dedupFirst seen l).Sublist l
  | [], _ => List.Sublist.slnil
  | u :: rest, seen => by
    by_cases h : u ∈ seen
    · simp only [dedupFirst, if_pos h]
      exact List.Sublist.cons u (dedupFirst_sublist rest seen)
    · simp only [dedupFirst, if_neg h]
      exact List.Sublist.cons₂ u (dedupFirst_sublist rest (u :: seen))

theorem mem_dedupFirst : ∀ (l seen : List String) (a : String),
    a ∈ dedupFirst seen l ↔ a ∈ l ∧ a ∉ seen
  | [], seen, a => by simp [dedupFirst]
  | u :: rest, seen, a => by
    by_cases h : u ∈ seen
    · simp only [dedupFirst, if_pos h]
      rw [mem_dedupFirst rest seen a]
      constructor
      · rintro ⟨h1, h2⟩
        exact ⟨List.mem_cons_of_mem _ h1, h2⟩
      · rintro ⟨h1, h2⟩
        rcases List.mem_cons.mp h1 with rfl | h3
        · exact absurd h h2
        · exact ⟨h3, h2⟩
    · simp only [dedupFirst, if_neg h]
      constructor
      · intro hm
        rcases List.mem_cons.mp hm with rfl | h3
        · exact ⟨List.mem_cons_self _ _, h⟩
        · have h4 := (mem_dedupFirst rest (u :: seen) a).mp h3
          exact ⟨List.mem_cons_of_mem _ h4.1, fun hs => h4.2 (List.mem_cons_of_mem _ hs)⟩
      · rintro ⟨h1, h2⟩
        by_cases hau : a = u
        · subst hau
          exact List.mem_cons_self _ _
        · have h3 : a ∈ rest := by
            rcases List.mem_cons.mp h1 with h4 | h4
            · exact absurd h4 hau
            · exact h4
          refine List.mem_cons_of_mem _ ((mem_dedupFirst rest (u :: seen) a).mpr ⟨h3, ?_⟩)
          intro hs
          rcases List.mem_cons.mp hs with h5 | h5
          · exact hau h5
          · exact h2 h5

theorem dedupFirst_nodup : ∀ (l seen : List String), (dedupFirst seen l).Nodup
  | [], _ => List.nodup_nil
  | u :: rest, seen => by
    by_cases h : u ∈ seen
    · simp only [dedupFirst, if_pos h]
      exact dedupFirst_nodup rest seen
    · simp only [dedupFirst, if_neg h]
      refine List.nodup_cons.mpr ⟨?_, dedupFirst_nodup rest (u :: seen)⟩
      intro hm
      exact ((mem_dedupFirst rest (u :: seen) u).mp hm).2 (List.mem_cons_self _ _)

theorem dedupFirst_pairwise : ∀ (l seen : List String),
    (dedupFirst seen l).Pairwise (fun a b => firstIdx a l < firstIdx b l)
  | [], _ => by simp [dedupFirst]
  | u :: rest, seen => by
    by_cases h : u ∈ seen
    · simp only [dedupFirst, if_pos h]
      refine (dedupFirst_pairwise rest seen).imp_of_mem ?_
      intro a b ha hb hab
      have ha' : ¬ u = a := fun he => ((mem_dedupFirst rest seen a).mp ha).2 (he ▸ h)
      have hb' : ¬ u = b := fun he => ((mem_dedupFirst rest seen b).mp hb).2 (he ▸ h)
      simp only [firstIdx, if_neg ha', if_neg hb']
      omega
    · simp only [dedupFirst, if_neg h]
      refine List.pairwise_cons.mpr ⟨?_, ?_⟩
      · intro b hb
        have hb' : ¬ u = b := fun he =>
          ((mem_dedupFirst rest (u :: seen) b).mp hb).2 (he ▸ List.mem_cons_self u seen)
        have e1 : firstIdx u (u :: rest) = 0 := by simp [firstIdx]
        have e2 : firstIdx b (u :: rest) = firstIdx b rest + 1 := by simp [firstIdx, hb']
        rw [e1, e2]
        omega
      · refine (dedupFirst_pairwise rest (u :: seen)).imp_of_mem ?_
        intro a b ha hb hab
        have ha' : ¬ u = a := fun he =>
          ((mem_dedupFirst rest (u :: seen) a).mp ha).2 (he ▸ List.mem_cons_self u seen)
        have hb' : ¬ u = b := fun he =>
          ((mem_dedupFirst rest (u :: seen) b).mp hb).2 (he ▸ List.mem_cons_self u seen)
        simp only [firstIdx, if_neg ha', if_neg hb']
        omega

/-- Claim C4 counterexample: on the empty string the code returns the
input unchanged rather than trimming and prepending a scheme, so the
claim fails at the input `""`. -/
theorem normalize_empty_string_cex :
    to_internal_value "" = "" ∧ specNormalize "" = "https://" ∧
    to_internal_value "" ≠ specNormalize "" := by decide

/-- Claim C4 (amended): for every non-empty raw input string the
normalizer first trims surrounding whitespace and then, when the
trimmed string lacks an http:// or https:// prefix, prepends `https:`
if it starts with `//` and `https://` otherwise; in particular the
three example strings normalize as the claim states. -/
theorem normalize_spec_amended (s : String) (h : s ≠ "") :
    to_internal_value s = specNormalize s ∧
    to_internal_value "example.com" = "https://example.com" ∧
    to_internal_value "//example.com" = "https://example.com" ∧
    to_internal_value "https://example.com" = "https://example.com" := by
  refine ⟨?_, by decide, by decide, by decide⟩
  unfold to_internal_value
  rw [if_neg h]
  rfl

/-- Witness for C4 at the non-empty input `"example.com"`. -/
theorem normalize_spec_witness :
    ("example.com" : String) ≠ "" ∧
    (to_internal_value "example.com" = specNormalize "example.com" ∧
     to_internal_value "example.com" = "https://example.com" ∧
     to_internal_value "//example.com" = "https://example.com" ∧
     to_internal_value "https://example.com" = "https://example.com") :=
  ⟨by decide, normalize_spec_amended "example.com" (by decide)⟩

/-- Claim C5: for valid inputs of 1 to 20 URLs the validated list is the
first-occurrence dedup of the normalized entries: never longer than the
input, duplicate-free, a sublist of the normalized input with exactly
its members, ordered by first occurrence; and ["a.com", "a.com"]
validates to ["https://a.com"]. -/
theorem validate_urls_dedup_spec (raw : List String)
    (h1 : 1 ≤ raw.length) (h2 : raw.length ≤ 20)
    (h3 : ∀ u ∈ raw, (to_internal_value u).length ≤ 2048) :
    validateRequest raw = .ok (validate_urls (raw.map to_internal_value)) ∧
    (validate_urls (raw.map to_internal_value)).length ≤ raw.length ∧
    (validate_urls (raw.map to_internal_value)).Nodup ∧
    (validate_urls (raw.map to_internal_value)).Sublist (raw.map to_internal_value) ∧
    (∀ a, a ∈ validate_urls (raw.map to_internal_value) ↔ a ∈ raw.map to_internal_value) ∧
    (validate_urls (raw.map to_internal_value)).Pairwise
      (fun a b => firstIdx a (raw.map to_internal_value)
        < firstIdx b (raw.map to_internal_value)) ∧
    validateRequest ["a.com", "a.com"] = .ok ["https://a.com"] := by
  have hany : ((raw.map to_internal_value).any fun u => u.length > 2048) = false := by
    rw [List.any_eq_false]
    intro x hx
    obtain ⟨u, hu, rfl⟩ := List.mem_map.mp hx
    have h4 := h3 u hu
    simp
    omega
  refine ⟨?_, ?_, dedupFirst_nodup _ _, dedupFirst_sublist _ _, ?_,
    dedupFirst_pairwise _ _, by decide⟩
  · rw [validateRequest, hany]
    simp only [Bool.false_eq_true, if_false]
    rw [if_neg (show ¬ raw.length < 1 by omega)]
    rw [if_neg (show ¬ raw.length > 20 by omega)]
  · calc (validate_urls (raw.map to_internal_value)).length
        ≤ (raw.map to_internal_value).length := (dedupFirst_sublist _ _).length_le
      _ = raw.length := List.length_map _ _
  · intro a
    rw [validate_urls, mem_dedupFirst]
    simp

/-- Witness for C5 at the concrete input ["a.com", "a.com"]. -/
theorem validate_urls_dedup_spec_witness :
    1 ≤ (["a.com", "a.com"] : List String).length ∧
    (["a.com", "a.com"] : List String).length ≤ 20 ∧
    (∀ u ∈ (["a.com", "a.com"] : List String), (to_internal_value u).length ≤ 2048) ∧
    (validateRequest ["a.com", "a.com"]
        = .ok (validate_urls ((["a.com", "a.com"] : List String).map to_internal_value)) ∧
     (validate_urls ((["a.com", "a.com"] : List String).map to_internal_value)).length
        ≤ (["a.com", "a.com"] : List String).length ∧
     (validate_urls ((["a.com", "a.com"] : List String).map to_internal_value)).Nodup ∧
     (validate_urls ((["a.com", "a.com"] : List String).map to_internal_value)).Sublist
        ((["a.com", "a.com"] : List String).map to_internal_value) ∧
     (∀ a, a ∈ validate_urls ((["a.com", "a.com"] : List String).map to_internal_value)
        ↔ a ∈ (["a.com", "a.com"] : List String).map to_internal_value) ∧
     (validate_urls ((["a.com", "a.com"] : List String).map to_internal_value)).Pairwise
        (fun a b => firstIdx a ((["a.com", "a.com"] : List String).map to_internal_value)
          < firstIdx b ((["a.com", "a.com"] : List String).map to_internal_value)) ∧
     validateRequest ["a.com", "a.com"] = .ok ["https://a.com"]) :=
  ⟨by decide, by decide, by decide,
   validate_urls_dedup_spec ["a.com", "a.com"] (by decide) (by decide) (by decide)⟩

/-- Claim C10: deduplication operates on the normalized URLs, not the
raw inputs: raw entries that normalize to the same string (for example
"a.com" and "https://a.com", or entries differing only in surrounding
whitespace) collapse to a single entry of the validated list. -/
theorem dedup_on_normalized (raw : List String) :
    (∀ x y, x ∈ raw → y ∈ raw → to_internal_value x = to_internal_value y →
      (validate_urls (raw.map to_internal_value)).count (to_internal_value x) = 1) ∧
    validateRequest ["a.com", "https://a.com"] = .ok ["https://a.com"] ∧
    validateRequest ["a.com", "  a.com  "] = .ok ["https://a.com"] := by
  refine ⟨?_, by decide, by decide⟩
  intro x y hx hy hxy
  have hmem : to_internal_value x ∈ validate_urls (raw.map to_internal_value) := by
    rw [validate_urls, mem_dedupFirst]
    exact ⟨List.mem_map_of_mem _ hx, by simp⟩
  exact List.count_eq_one_of_mem (dedupFirst_nodup _ _) hmem

/-- Witness for C10 at the raw entries "a.com" and "https://a.com". -/
theorem dedup_on_normalized_witness :
    ("a.com" : String) ∈ (["a.com", "https://a.com"] : List String) ∧
    ("https://a.com" : String) ∈ (["a.com", "https://a.com"] : List String) ∧
    to_internal_value "a.com" = to_internal_value "https://a.com" ∧
    (validate_urls ((["a.com", "https://a.com"] : List String).map to_internal_value)).count
        (to_internal_value "a.com") = 1 :=
  ⟨by decide, by decide, by decide,
   (dedup_on_normalized ["a.com", "https://a.com"]).1 "a.com" "https://a.com"
     (by decide) (by decide) (by decide)⟩

/-! ## The view layer -/

/-- Claim C6: a request with 0 or more than 20 URLs fails validation and
is answered with a 400 response for every settings record and upstream
oracle (so no upstream call can influence it), and the ceiling is
checked before deduplication: 21 duplicate entries are rejected even
though they would dedup to a single URL. -/
theorem batch_size_rejected (s : Settings) (upstream : String → UpstreamOutcome)
    (now : ℕ) (raw : List String)
    (h : raw.length = 0 ∨ 20 < raw.length) :
    validateRequest raw = .error "Invalid input" ∧
    analyze_url s upstream now raw = ⟨.badRequest400, none⟩ ∧
    analyze_url s upstream now (List.replicate 21 "a.com") = ⟨.badRequest400, none⟩ := by
  have hval : validateRequest raw = .error "Invalid input" := by
    rw [validateRequest]
    by_cases hany : ((raw.map to_internal_value).any fun u => u.length > 2048) = true
    · rw [if_pos hany]
    · rw [if_neg hany]
      rcases h with h0 | h21
      · rw [if_pos (by omega)]
      · rw [if_neg (by omega), if_pos (by omega)]
  have h21 : validateRequest (List.replicate 21 "a.com") = .error "Invalid input" := by decide
  refine ⟨hval, ?_, ?_⟩
  · unfold analyze_url
    rw [hval]
  · unfold analyze_url
    rw [h21]

/-- Witness for C6 at 21 identical entries. -/
theorem batch_size_rejected_witness :
    ((List.replicate 21 "a.com").length = 0 ∨ 20 < (List.replicate 21 "a.com").length) ∧
    (validateRequest (List.replicate 21 "a.com") = .error "Invalid input" ∧
     analyze_url wSettings wUpstream 0 (List.replicate 21 "a.com") = ⟨.badRequest400, none⟩ ∧
     analyze_url wSettings wUpstream 0 (List.replicate 21 "a.com") = ⟨.badRequest400, none⟩) :=
  ⟨Or.inr (by decide),
   batch_size_rejected wSettings wUpstream 0 (List.replicate 21 "a.com") (Or.inr (by decide))⟩

/-- Claim C7: with the credential absent, service construction fails
immediately with the typed `CrUXAPIError`, and the view answers 503 for
the whole request; with a constructed service the view answers 200 for
every upstream oracle, so per-URL upstream failures never reach the
503 path. -/
theorem missing_key_503 (s : Settings) (upstream : String → UpstreamOutcome)
    (now : ℕ) (raw urls : List String)
    (hv : validateRequest raw = .ok urls) (hk : s.CRUX_API_KEY = none) :
    mkCrUXService s = .error "CrUX API key not configured" ∧
    analyze_url s upstream now raw = ⟨.serviceUnavailable503, none⟩ ∧
    (∀ (s' : Settings) (svc : CrUXService), mkCrUXService s' = .ok svc →
      analyze_url s' upstream now raw = ⟨.ok200, some (analyze_urls upstream now urls)⟩) := by
  have hmk : mkCrUXService s = .error "CrUX API key not configured" := by
    unfold mkCrUXService
    rw [hk]
  refine ⟨hmk, ?_, ?_⟩
  · unfold analyze_url
    rw [hv, hmk]
  · intro s' svc h'
    unfold analyze_url
    rw [hv, h']

/-- Witness for C7 at a settings record with no credential and a valid
one-URL request. -/
theorem missing_key_503_witness :
    validateRequest ["a.com"] = .ok ["https://a.com"] ∧
    wNoKey.CRUX_API_KEY = none ∧
    (mkCrUXService wNoKey = .error "CrUX API key not configured" ∧
     analyze_url wNoKey wUpstream 0 ["a.com"] = ⟨.serviceUnavailable503, none⟩ ∧
     (∀ (s' : Settings) (svc : CrUXService), mkCrUXService s' = .ok svc →
       analyze_url s' wUpstream 0 ["a.com"]
         = ⟨.ok200, some (analyze_urls wUpstream 0 ["https://a.com"])⟩)) :=
  ⟨by decide, rfl,
   missing_key_503 wNoKey wUpstream 0 ["a.com"] ["https://a.com"] (by decide) rfl⟩

end Crux
